import Mathlib

/-!
Verification of `generate_massive_wordlists.py`.

A shallow embedding of the wordlist generator.  Python strings are modelled
as `List Char`; a Python `set` is modelled as a duplicate-free `List` whose
iteration order (used by `list(results)[:max_results]`) is an explicit
parameter `perm : List (List Char) → List (List Char)` standing for the
runtime's set-iteration order (assumed to permute its input).
-/

/-- `VALID_CHARS = "123456789ABCDEFGHIJKLMNOPQRSTUVWXYZ"` (line 12). -/
def VALID_CHARS : List Char := "123456789ABCDEFGHIJKLMNOPQRSTUVWXYZ".toList

/-- `POPULAR_NUMS` (line 16). -/
def POPULAR_NUMS : List (List Char) :=
  ["69", "42", "666", "777", "888", "999", "123", "321", "111", "222", "333",
   "444", "555", "1337", "9999", "8888", "7777", "1234", "4321", "2222",
   "3333", "4444", "5555", "6666", "1111"].map String.toList

/-- `COOL_WORDS` (lines 19-47). -/
def COOL_WORDS : List (List Char) :=
  ["GAME", "PLAY", "WIN", "LOSS", "EPIC", "MEGA", "GIGA", "TERA",
   "BOSS", "HERO", "GOD", "KING", "QUEEN", "ACE", "JOKER", "CARD", "DECK", "HAND",
   "BET", "FOLD", "CALL", "RAISE", "BLUFF", "POKER", "FLUSH", "ROYAL", "FULL",
   "PAIR", "TRIPS", "QUADS", "HIGH", "LOW", "WILD", "DRAW", "DEAL",
   "POWER", "FORCE", "ULTRA", "SUPER", "HYPER", "TURBO", "NITRO", "BOOST", "SPEED",
   "FAST", "QUICK", "SWIFT", "RAPID", "FLASH", "BOLT", "SHOCK", "SPARK", "FLAME",
   "FIRE", "ICE", "FROST", "FREEZE", "BURN", "BLAZE", "STORM", "WIND", "GALE",
   "CHAD", "SIGMA", "ALPHA", "BETA", "OMEGA", "DELTA", "GAMMA", "PRIME", "ELITE",
   "PRO", "MASTER", "LEGEND", "MYTH", "FABLE", "SAGA", "TALE", "LORE", "DOOM",
   "TECH", "CYBER", "HACK", "CODE", "DATA", "BYTE", "BIT", "PIXEL", "MATRIX",
   "GRID", "NET", "WEB", "LINK", "NODE", "PORT", "GATE", "CORE", "SYSTEM",
   "DRAGON", "PHOENIX", "WOLF", "BEAR", "LION", "TIGER", "EAGLE", "HAWK", "RAVEN",
   "SHARK", "WHALE", "VIPER", "COBRA", "PYTHON", "BEAST", "MONSTER",
   "MAX", "MAXX", "NEO", "ZEN", "APEX", "PEAK", "TOP", "BEST", "PURE", "TRUE",
   "REAL", "FAKE", "ANTI", "DARK", "LIGHT", "VOID", "NULL", "ZERO", "ONE", "TWO",
   "RED", "BLUE", "GREEN", "GOLD", "BLACK", "WHITE", "GRAY", "NEON", "GLOW"
  ].map String.toList

/-- Normalization inside `generate_padded_combinations` (lines 122-125):
`word = word.upper()` then keep only characters of `VALID_CHARS`. -/
def normalizeWord (word : List Char) : List Char :=
  (word.map Char.toUpper).filter (fun c => VALID_CHARS.contains c)

/-- The slack-filler characters `['1', '9', 'X', 'Z']` (lines 145, 154). -/
def fillers : List Char := ['1', '9', 'X', 'Z']

/-- The simple-padding characters (line 162). -/
def padChars : List Char :=
  ['1', '2', '3', '4', '5', '6', '7', '8', '9', 'X', 'Z', 'Q']

/-- The body of the `for num in POPULAR_NUMS` loop (lines 137-155): pad `w`
with `num` at the end, then at the start, filling the slack with each
filler character. -/
def padWithNum (w num : List Char) : List (List Char) :=
  if num.length ≤ 8 - w.length then
    (if (w ++ num).length ≤ 8 then
      let remaining := 8 - w.length - num.length
      if remaining = 0 then [w ++ num]
      else fillers.map (fun f => w ++ num ++ List.replicate remaining f)
     else []) ++
    (if (num ++ w).length ≤ 8 then
      let remaining := 8 - num.length - w.length
      if remaining = 0 then [num ++ w]
      else fillers.map (fun f => num ++ w ++ List.replicate remaining f)
     else [])
  else []

/-- All `results.add(...)` calls of `generate_padded_combinations` in the
branch `0 < len(word) < 8` (lines 137-163), in program order: number
padding, character repetition, simple padding. -/
def rawPadResults (w : List Char) : List (List Char) :=
  POPULAR_NUMS.flatMap (padWithNum w) ++
  [w ++ List.replicate (8 - w.length) (w.getLastD 'A'),
   List.replicate (8 - w.length) (w.headD 'A') ++ w] ++
  padChars.map (fun c => w ++ List.replicate (8 - w.length) c)

/-- Building a Python set by successive `add` calls: keep the first
occurrence of each element, in insertion order. -/
def addSeeds (acc : List (List Char)) : List (List Char) → List (List Char)
  | [] => acc
  | a :: rest =>
      if acc.contains a then addSeeds acc rest else addSeeds (acc ++ [a]) rest

/-- The distinct elements of `l`, first occurrences first: the contents of
the Python set obtained by adding every element of `l`. -/
def pySet (l : List (List Char)) : List (List Char) := addSeeds [] l

/-- `generate_padded_combinations` (lines 119-166).  The returned Python set
is modelled as a duplicate-free list; `perm` is the set-iteration order used
by `list(results)` before the `[:max_results]` truncation (line 166). -/
def generate_padded_combinations
    (perm : List (List Char) → List (List Char))
    (word : List Char) (max_results : Nat) : List (List Char) :=
  let w := normalizeWord word
  if w = [] ∨ 8 < w.length then []
  else if w.length = 8 then [w]
  else (perm (pySet (rawPadResults w))).take max_results

/-- `leet_map` (lines 170-173), in Python dict insertion order. -/
def leet_map : List (Char × Char) :=
  [('A', '4'), ('E', '3'), ('I', '1'), ('O', '0'),
   ('S', '5'), ('T', '7'), ('G', '6'), ('B', '8'), ('L', '1')]

/-- `generate_leet_variations` (lines 168-181): the word itself, then one
variant per applicable map entry, replacing every occurrence. -/
def generate_leet_variations (word : List Char) : List (List Char) :=
  word :: (leet_map.filter
      (fun p => word.contains p.1 && VALID_CHARS.contains p.2)).map
    (fun p => word.map (fun c => if c = p.1 then p.2 else c))

/-- `number_patterns` (lines 203-212). -/
def number_patterns : List (List Char) :=
  ["69696969", "42424242", "66666666", "77777777", "88888888", "99999999",
   "12345678", "87654321", "11111111", "22222222", "33333333", "44444444",
   "55555555", "13371337", "42694269", "69426942", "11223344", "44332211",
   "12121212", "21212121", "13131313", "31313131", "14141414", "41414141",
   "69696942", "42424269", "69694242", "42426969", "13376969", "69691337",
   "42421337", "13374242", "66669999", "99996666", "77778888", "88887777",
   "12344321", "43211234", "11119999", "99991111", "66664242", "42426666",
   "69997777", "77776999", "88884242", "42428888", "99994242", "42429999"
  ].map String.toList

/-- The validity check of lines 215 and 239:
`len(s) == 8 and all(c in VALID_CHARS for c in s)`. -/
def isValidSeed (s : List Char) : Bool :=
  s.length == 8 && s.all (fun c => VALID_CHARS.contains c)

/-- The pure-number-pattern phase (lines 214-216). -/
def patternPhase : List (List Char) :=
  number_patterns.filter isValidSeed

/-- The two-word-combination phase (lines 219-226), over the first 50 words. -/
def pairPhase (perm : List (List Char) → List (List Char))
    (words : List (List Char)) : List (List Char) :=
  (words.take 50).flatMap (fun w1 =>
    (words.take 50).flatMap (fun w2 =>
      if w1.length + w2.length ≤ 8 then
        let combined := w1 ++ w2
        if combined.length < 8 then generate_padded_combinations perm combined 200
        else if combined.length = 8 then [combined]
        else []
      else []))

/-- The popular-number list of the word+number phase (line 230). -/
def WORDNUM_NUMS : List (List Char) :=
  ["69", "42", "666", "777", "888", "999", "123", "321", "111"].map String.toList

/-- The word + popular-number phase (lines 229-236). -/
def wordNumPhase (words : List (List Char)) : List (List Char) :=
  words.flatMap (fun word =>
    WORDNUM_NUMS.flatMap (fun num =>
      if word.length + num.length ≤ 8 then
        [(word ++ num ++ List.replicate (8 - word.length - num.length) '1').take 8,
         (num ++ word ++ List.replicate (8 - num.length - word.length) '1').take 8,
         (word ++ num ++ List.replicate (8 - word.length - num.length) 'X').take 8,
         (num ++ word ++ List.replicate (8 - num.length - word.length) 'Z').take 8]
      else []))

/-- All elements ever added to the `all_seeds` set of
`generate_word_combinations` (lines 185-236), in program order: per-word
padding and leet phases, number patterns, word pairs, word+number. -/
def all_seeds (perm : List (List Char) → List (List Char))
    (words : List (List Char)) : List (List Char) :=
  (words.filter (fun w => w.length ≤ 8)).flatMap (fun word =>
      generate_padded_combinations perm word 200 ++
      (generate_leet_variations word).flatMap
        (fun lw => generate_padded_combinations perm lw 200)) ++
  patternPhase ++
  pairPhase perm words ++
  wordNumPhase words

/-- `valid_seeds` before sorting (line 239): the distinct elements of the
`all_seeds` set that pass the defensive re-validation filter. -/
def valid_seeds (perm : List (List Char) → List (List Char))
    (words : List (List Char)) : List (List Char) :=
  (pySet (all_seeds perm words)).filter isValidSeed

/-- `generate_word_combinations` (lines 183-247): the sorted lines written
to the output file (lines 242-244) paired with the returned count
`len(valid_seeds)` (line 247).  `valid_seeds.sort()` is lexicographic by
code point, the `≤` of `LinearOrder (List Char)`. -/
def generate_word_combinations (perm : List (List Char) → List (List Char))
    (words : List (List Char)) : List (List Char) × Nat :=
  let out := (valid_seeds perm words).insertionSort (· ≤ ·)
  (out, out.length)

/-- The sequence of lines written to the output file. -/
def outLines (perm : List (List Char) → List (List Char))
    (words : List (List Char)) : List (List Char) :=
  (generate_word_combinations perm words).1

/-- Every word that `generate_word_combinations` ever feeds to
`generate_padded_combinations`: each kept word together with its leet
variations (the word itself heads `generate_leet_variations word`), and
every two-word concatenation shorter than 8 characters. -/
def paddedCalls (words : List (List Char)) : List (List Char) :=
  (words.filter (fun w => w.length ≤ 8)).flatMap generate_leet_variations ++
  (words.take 50).flatMap (fun w1 =>
    (words.take 50).flatMap (fun w2 =>
      if w1.length + w2.length ≤ 8 ∧ (w1 ++ w2).length < 8
      then [w1 ++ w2] else []))

/-- The determinism claim on the generator: the written lines do not depend
on the runtime's set-iteration orders of the two runs. -/
def generatorDeterministic : Prop :=
  ∀ perm₁ perm₂ : List (List Char) → List (List Char),
    (∀ l, List.Perm (perm₁ l) l) → (∀ l, List.Perm (perm₂ l) l) →
    ∀ words : List (List Char), outLines perm₁ words = outLines perm₂ words

/-! ## Basic lemmas about the set model -/

theorem mem_addSeeds {acc l : List (List Char)} {a : List Char} :
    a ∈ addSeeds acc l ↔ a ∈ acc ∨ a ∈ l := by
  induction l generalizing acc with
  | nil => simp [addSeeds]
  | cons b rest ih =>
    by_cases hb : acc.contains b
    · have hbm : b ∈ acc := by simpa using hb
      rw [addSeeds, if_pos hb, ih]
      simp only [List.mem_cons]
      constructor
      · rintro (h | h)
        · exact Or.inl h
        · exact Or.inr (Or.inr h)
      · rintro (h | rfl | h)
        · exact Or.inl h
        · exact Or.inl hbm
        · exact Or.inr h
    · rw [addSeeds, if_neg hb, ih]
      simp only [List.mem_append, List.mem_singleton, List.mem_cons]
      tauto

theorem nodup_addSeeds {acc l : List (List Char)} (h : acc.Nodup) :
    (addSeeds acc l).Nodup := by
  induction l generalizing acc with
  | nil => simpa [addSeeds] using h
  | cons b rest ih =>
    by_cases hb : acc.contains b
    · rw [addSeeds, if_pos hb]
      exact ih h
    · rw [addSeeds, if_neg hb]
      refine ih ?_
      have hbm : b ∉ acc := by simpa using hb
      simp [List.nodup_append, h, hbm]

theorem mem_pySet {l : List (List Char)} {a : List Char} :
    a ∈ pySet l ↔ a ∈ l := by
  simp [pySet, mem_addSeeds]

theorem nodup_pySet (l : List (List Char)) : (pySet l).Nodup :=
  nodup_addSeeds List.nodup_nil

theorem isValidSeed_iff {s : List Char} :
    isValidSeed s = true ↔ s.length = 8 ∧ ∀ c ∈ s, c ∈ VALID_CHARS := by
  simp [isValidSeed, List.all_eq_true]

theorem normalizeWord_chars {word : List Char} :
    ∀ c ∈ normalizeWord word, c ∈ VALID_CHARS := by
  intro c hc
  rw [normalizeWord, List.mem_filter] at hc
  simpa using hc.2

theorem getLastD_mem {l : List Char} (h : l ≠ []) (d : Char) :
    l.getLastD d ∈ l := by
  induction l generalizing d with
  | nil => exact absurd rfl h
  | cons a l ih =>
    rw [List.getLastD_cons]
    cases l with
    | nil => simp
    | cons b l => exact List.mem_cons_of_mem a (ih (List.cons_ne_nil b l) a)

theorem headD_mem {l : List Char} (h : l ≠ []) (d : Char) : l.headD d ∈ l := by
  cases l with
  | nil => exact absurd rfl h
  | cons a l => simp [List.headD]

/-! ## Validity of every candidate produced by the padding phase -/

theorem popular_nums_chars : ∀ num ∈ POPULAR_NUMS, ∀ c ∈ num, c ∈ VALID_CHARS := by
  decide

theorem fillers_chars : ∀ c ∈ fillers, c ∈ VALID_CHARS := by decide

theorem padChars_chars : ∀ c ∈ padChars, c ∈ VALID_CHARS := by decide

theorem padWithNum_valid {w num : List Char}
    (hw : ∀ c ∈ w, c ∈ VALID_CHARS) (hnum : ∀ c ∈ num, c ∈ VALID_CHARS) :
    ∀ s ∈ padWithNum w num, s.length = 8 ∧ ∀ c ∈ s, c ∈ VALID_CHARS := by
  intro s hs
  simp only [padWithNum] at hs
  split at hs
  · rename_i hfit
    rw [List.mem_append] at hs
    rcases hs with hs | hs <;>
    · split at hs
      · rename_i hle
        rw [List.length_append] at hle
        split at hs
        · rename_i hrem
          rw [List.mem_singleton] at hs
          subst hs
          constructor
          · rw [List.length_append]; omega
          · intro c hc
            rcases List.mem_append.mp hc with h | h
            · first | exact hw c h | exact hnum c h
            · first | exact hw c h | exact hnum c h
        · rename_i hrem
          rcases List.mem_map.mp hs with ⟨f, hf, rfl⟩
          constructor
          · simp only [List.length_append, List.length_replicate]; omega
          · intro c hc
            rcases List.mem_append.mp hc with h | h
            · rcases List.mem_append.mp h with h2 | h2
              · first | exact hw c h2 | exact hnum c h2
              · first | exact hw c h2 | exact hnum c h2
            · rw [List.eq_of_mem_replicate h]
              exact fillers_chars f hf
      · cases hs
  · cases hs

theorem rawPadResults_valid {w : List Char} (hne : w ≠ []) (hlen : w.length ≤ 8)
    (hw : ∀ c ∈ w, c ∈ VALID_CHARS) :
    ∀ s ∈ rawPadResults w, s.length = 8 ∧ ∀ c ∈ s, c ∈ VALID_CHARS := by
  intro s hs
  rw [rawPadResults] at hs
  rw [List.append_assoc, List.mem_append] at hs
  rcases hs with hs | hs
  · rcases List.mem_flatMap.mp hs with ⟨num, hnum, hmem⟩
    exact padWithNum_valid hw (popular_nums_chars num hnum) s hmem
  · have hw0 : 0 < w.length := List.length_pos.mpr hne
    rw [List.mem_append] at hs
    rcases hs with hs | hs
    · rw [List.mem_cons, List.mem_cons] at hs
      rcases hs with rfl | rfl | h
      · refine ⟨by simp only [List.length_append, List.length_replicate]; omega, ?_⟩
        intro c hc
        rcases List.mem_append.mp hc with h | h
        · exact hw c h
        · rw [List.eq_of_mem_replicate h]
          exact hw _ (getLastD_mem hne _)
      · refine ⟨by simp only [List.length_append, List.length_replicate]; omega, ?_⟩
        intro c hc
        rcases List.mem_append.mp hc with h | h
        · rw [List.eq_of_mem_replicate h]
          exact hw _ (headD_mem hne _)
        · exact hw c h
      · cases h
    · rcases List.mem_map.mp hs with ⟨p, hp, rfl⟩
      refine ⟨by simp only [List.length_append, List.length_replicate]; omega, ?_⟩
      intro c hc
      rcases List.mem_append.mp hc with h | h
      · exact hw c h
      · rw [List.eq_of_mem_replicate h]
        exact padChars_chars p hp

set_option maxRecDepth 10000

/-- C9: for every input word, every string returned by
`generate_padded_combinations` already has length exactly 8 and every
character in the alphabet, so the re-validation filter of line 239 never
removes a candidate produced by the padding phase. -/
theorem padded_combinations_all_valid
    (perm : List (List Char) → List (List Char))
    (hperm : ∀ l, List.Perm (perm l) l) (word : List Char) :
    ∀ s ∈ generate_padded_combinations perm word 200,
      s.length = 8 ∧ (∀ c ∈ s, c ∈ VALID_CHARS) ∧ isValidSeed s = true := by
  intro s hs
  simp only [generate_padded_combinations] at hs
  split at hs
  · cases hs
  · split at hs
    · rename_i hlen8
      rw [List.mem_singleton] at hs
      subst hs
      exact ⟨hlen8, normalizeWord_chars,
        isValidSeed_iff.mpr ⟨hlen8, normalizeWord_chars⟩⟩
    · rename_i hnot hne8
      rw [not_or, not_lt] at hnot
      have hmem : s ∈ rawPadResults (normalizeWord word) :=
        mem_pySet.mp (((hperm _).mem_iff).mp (List.mem_of_mem_take hs))
      obtain ⟨h1, h2⟩ :=
        rawPadResults_valid hnot.1 hnot.2 normalizeWord_chars s hmem
      exact ⟨h1, h2, isValidSeed_iff.mpr ⟨h1, h2⟩⟩

/-- Witness for C9 at the word `"GAME"` and the candidate `"GAME1111"`. -/
theorem padded_combinations_all_valid_witness :
    ("GAME1111".toList).length = 8 ∧
      (∀ c ∈ "GAME1111".toList, c ∈ VALID_CHARS) ∧
      isValidSeed "GAME1111".toList = true :=
  padded_combinations_all_valid id (fun l => List.Perm.refl l) "GAME".toList
    "GAME1111".toList (by decide)

/-- C6: a word whose normalization has length exactly 8 yields exactly the
singleton set containing that normalized word. -/
theorem normalized_full_length_singleton
    (perm : List (List Char) → List (List Char)) (word : List Char)
    (h : (normalizeWord word).length = 8) :
    generate_padded_combinations perm word 200 = [normalizeWord word] := by
  simp only [generate_padded_combinations]
  rw [if_neg, if_pos h]
  rw [not_or]
  constructor
  · intro hnil
    rw [hnil] at h
    cases h
  · omega

/-- Witness for C6 at the 8-character word `"ABCDEFGH"`. -/
theorem normalized_full_length_singleton_witness :
    generate_padded_combinations id "ABCDEFGH".toList 200 =
      [normalizeWord "ABCDEFGH".toList] :=
  normalized_full_length_singleton id "ABCDEFGH".toList (by decide)

/-- C7: a word whose normalization is empty or longer than 8 characters is
silently dropped: `generate_padded_combinations` returns the empty set. -/
theorem malformed_word_no_candidates
    (perm : List (List Char) → List (List Char)) (word : List Char)
    (h : normalizeWord word = [] ∨ 8 < (normalizeWord word).length) :
    generate_padded_combinations perm word 200 = [] := by
  simp only [generate_padded_combinations]
  rw [if_pos h]

/-- Witness for C7 at the 9-character word `"DISCHARGE"`. -/
theorem malformed_word_no_candidates_witness :
    generate_padded_combinations id "DISCHARGE".toList 200 = [] :=
  malformed_word_no_candidates id "DISCHARGE".toList (Or.inr (by decide))

/-- C8: the set returned by `generate_padded_combinations` with the default
`max_results` of 200 has no duplicates and at most 200 elements. -/
theorem padded_combinations_le_cap
    (perm : List (List Char) → List (List Char))
    (hperm : ∀ l, List.Perm (perm l) l) (word : List Char) :
    (generate_padded_combinations perm word 200).Nodup ∧
      (generate_padded_combinations perm word 200).length ≤ 200 := by
  simp only [generate_padded_combinations]
  split
  · simp
  · split
    · simp
    · constructor
      · exact List.Nodup.sublist (List.take_sublist _ _)
          (((hperm _).nodup_iff).mpr (nodup_pySet _))
      · rw [List.length_take]
        omega

/-- Witness for C8 at the word `"GAME"` with the identity iteration order. -/
theorem padded_combinations_le_cap_witness :
    (generate_padded_combinations id "GAME".toList 200).Nodup ∧
      (generate_padded_combinations id "GAME".toList 200).length ≤ 200 :=
  padded_combinations_le_cap id (fun l => List.Perm.refl l) "GAME".toList

/-- C5: the padding phase for `"GAME"` contains `"GAME1111"`, `"GAME9999"`
and `"GAMEEEEE"`, and this membership survives the 200-item cap (the
candidate set for `"GAME"` has fewer than 200 elements, so the truncation
keeps it whole under every iteration order). -/
theorem game_padded_members
    (perm : List (List Char) → List (List Char))
    (hperm : ∀ l, List.Perm (perm l) l) :
    "GAME1111".toList ∈ generate_padded_combinations perm "GAME".toList 200 ∧
    "GAME9999".toList ∈ generate_padded_combinations perm "GAME".toList 200 ∧
    "GAMEEEEE".toList ∈ generate_padded_combinations perm "GAME".toList 200 := by
  have hexp : generate_padded_combinations perm "GAME".toList 200 =
      perm (pySet (rawPadResults (normalizeWord "GAME".toList))) := by
    simp only [generate_padded_combinations]
    rw [if_neg (by decide), if_neg (by decide)]
    refine List.take_of_length_le ?_
    rw [(hperm _).length_eq]
    decide
  rw [hexp]
  refine ⟨((hperm _).mem_iff).mpr (by decide),
    ((hperm _).mem_iff).mpr (by decide), ((hperm _).mem_iff).mpr (by decide)⟩

/-- Witness for C5 with the identity iteration order. -/
theorem game_padded_members_witness :
    "GAME1111".toList ∈ generate_padded_combinations id "GAME".toList 200 ∧
    "GAME9999".toList ∈ generate_padded_combinations id "GAME".toList 200 ∧
    "GAMEEEEE".toList ∈ generate_padded_combinations id "GAME".toList 200 :=
  game_padded_members id (fun l => List.Perm.refl l)

theorem mem_valid_seeds {perm : List (List Char) → List (List Char)}
    {words : List (List Char)} {s : List Char} :
    s ∈ valid_seeds perm words ↔
      s ∈ all_seeds perm words ∧ isValidSeed s = true := by
  rw [valid_seeds, List.mem_filter, mem_pySet]

theorem mem_outLines {perm : List (List Char) → List (List Char)}
    {words : List (List Char)} {s : List Char} :
    s ∈ outLines perm words ↔ s ∈ valid_seeds perm words := by
  rw [outLines, generate_word_combinations]
  exact List.mem_insertionSort _

/-- C1: every line written by `generate_word_combinations` has length
exactly 8 and draws every character from the 35-character alphabet. -/
theorem outLines_all_valid
    (perm : List (List Char) → List (List Char))
    (words : List (List Char)) (s : List Char)
    (hs : s ∈ outLines perm words) :
    s.length = 8 ∧ ∀ c ∈ s, c ∈ VALID_CHARS :=
  isValidSeed_iff.mp (mem_valid_seeds.mp (mem_outLines.mp hs)).2

/-- Witness for C1 at the line `"69696969"` of the empty-word-list output. -/
theorem outLines_all_valid_witness :
    ("69696969".toList).length = 8 ∧ ∀ c ∈ "69696969".toList, c ∈ VALID_CHARS :=
  outLines_all_valid id [] "69696969".toList (by decide)

/-- C2: the lines written by `generate_word_combinations` are strictly
sorted in ascending lexicographic order and contain no duplicates. -/
theorem outLines_sorted_nodup
    (perm : List (List Char) → List (List Char))
    (words : List (List Char)) :
    (outLines perm words).Sorted (· < ·) ∧ (outLines perm words).Nodup := by
  have hnd : (valid_seeds perm words).Nodup :=
    List.Nodup.filter _ (nodup_pySet _)
  have hnd2 : (outLines perm words).Nodup := by
    rw [outLines, generate_word_combinations]
    exact ((List.perm_insertionSort _ _).nodup_iff).mpr hnd
  have hle : (outLines perm words).Sorted (· ≤ ·) := by
    rw [outLines, generate_word_combinations]
    exact List.sorted_insertionSort _ _
  exact ⟨List.Sorted.lt_of_le hle hnd2, hnd2⟩

/-- C4: every one of the 48 fixed numeric patterns is 8 characters of the
alphabet and is added unconditionally: it appears in the output for every
category word list. -/
theorem number_patterns_in_outLines
    (perm : List (List Char) → List (List Char))
    (words : List (List Char)) (p : List Char)
    (hp : p ∈ number_patterns) : p ∈ outLines perm words := by
  have hv : isValidSeed p = true := by
    revert p
    decide
  refine mem_outLines.mpr (mem_valid_seeds.mpr ⟨?_, hv⟩)
  rw [all_seeds]
  rw [List.append_assoc, List.append_assoc, List.mem_append]
  refine Or.inr (List.mem_append.mpr (Or.inl ?_))
  exact List.mem_filter.mpr ⟨hp, hv⟩

/-- Witness for C4: `"69696969"` appears in the `"cool"`-category output. -/
theorem number_patterns_in_outLines_witness :
    "69696969".toList ∈ outLines id COOL_WORDS :=
  number_patterns_in_outLines id COOL_WORDS "69696969".toList (by decide)

/-- C10: with an empty word list the output is still non-empty: it is a
permutation of (exactly) the 48 fixed numeric patterns, and the returned
count is 48. -/
theorem empty_words_outLines
    (perm : List (List Char) → List (List Char)) :
    List.Perm (outLines perm []) number_patterns ∧
      (generate_word_combinations perm []).2 = 48 ∧
      outLines perm [] ≠ [] := by
  have hv : valid_seeds perm [] = number_patterns := by rfl
  have hperm : List.Perm (outLines perm []) number_patterns := by
    rw [outLines, generate_word_combinations, hv]
    exact List.perm_insertionSort _ _
  refine ⟨hperm, ?_, ?_⟩
  · show (outLines perm []).length = 48
    rw [hperm.length_eq]
    rfl
  · intro hnil
    have := hperm.length_eq
    rw [hnil] at this
    cases this

set_option maxHeartbeats 16000000

/-- C3 counterexample: the generator is not a deterministic function of its
inputs.  For the one-word list `["LOL"]` the padding candidate set has 210
elements, so the `[:200]` truncation depends on the set-iteration order:
the seed `"LOL69999"` is written under one order and not under another. -/
theorem generator_not_deterministic : ¬ generatorDeterministic := by
  intro h
  have heq := h id List.reverse (fun l => List.Perm.refl l)
    (fun l => List.reverse_perm l) ["LOL".toList]
  have hin : "LOL69999".toList ∈ outLines id ["LOL".toList] := by
    refine mem_outLines.mpr (mem_valid_seeds.mpr ⟨?_, by decide⟩)
    rw [all_seeds, List.mem_append, List.mem_append, List.mem_append]
    refine Or.inl (Or.inl (Or.inl ?_))
    refine List.mem_flatMap.mpr ⟨"LOL".toList, by decide, ?_⟩
    refine List.mem_append.mpr (Or.inl ?_)
    decide
  have hout : "LOL69999".toList ∉ outLines List.reverse ["LOL".toList] := by
    intro hmem
    have hall := (mem_valid_seeds.mp (mem_outLines.mp hmem)).1
    revert hall
    decide
  rw [heq] at hin
  exact hout hin

theorem gpc_perm_congr (perm₁ perm₂ : List (List Char) → List (List Char))
    (h₁ : ∀ l, List.Perm (perm₁ l) l) (h₂ : ∀ l, List.Perm (perm₂ l) l)
    (word : List Char)
    (hcap : (pySet (rawPadResults (normalizeWord word))).length ≤ 200) :
    List.Perm (generate_padded_combinations perm₁ word 200)
      (generate_padded_combinations perm₂ word 200) := by
  simp only [generate_padded_combinations]
  split
  · exact List.Perm.refl _
  · split
    · exact List.Perm.refl _
    · rw [List.take_of_length_le (by rw [(h₁ _).length_eq]; exact hcap),
        List.take_of_length_le (by rw [(h₂ _).length_eq]; exact hcap)]
      exact (h₁ _).trans (h₂ _).symm

theorem leet_mem_paddedCalls {words : List (List Char)} {word lw : List Char}
    (hw : word ∈ words) (hlen : word.length ≤ 8)
    (hl : lw ∈ generate_leet_variations word) : lw ∈ paddedCalls words := by
  rw [paddedCalls, List.mem_append]
  refine Or.inl (List.mem_flatMap.mpr ⟨word, ?_, hl⟩)
  rw [List.mem_filter]
  exact ⟨hw, by simpa using hlen⟩

theorem word_mem_paddedCalls {words : List (List Char)} {word : List Char}
    (hw : word ∈ words) (hlen : word.length ≤ 8) : word ∈ paddedCalls words :=
  leet_mem_paddedCalls hw hlen (List.mem_cons_self _ _)

theorem pair_mem_paddedCalls {words : List (List Char)} {w1 w2 : List Char}
    (h1 : w1 ∈ words.take 50) (h2 : w2 ∈ words.take 50)
    (hfit : w1.length + w2.length ≤ 8) (hlt : (w1 ++ w2).length < 8) :
    (w1 ++ w2) ∈ paddedCalls words := by
  rw [paddedCalls, List.mem_append]
  refine Or.inr (List.mem_flatMap.mpr ⟨w1, h1, List.mem_flatMap.mpr ⟨w2, h2, ?_⟩⟩)
  rw [if_pos ⟨hfit, hlt⟩]
  exact List.mem_singleton.mpr rfl

theorem all_seeds_perm_congr (perm₁ perm₂ : List (List Char) → List (List Char))
    (h₁ : ∀ l, List.Perm (perm₁ l) l) (h₂ : ∀ l, List.Perm (perm₂ l) l)
    (words : List (List Char))
    (hcap : ∀ w ∈ paddedCalls words,
      (pySet (rawPadResults (normalizeWord w))).length ≤ 200) :
    List.Perm (all_seeds perm₁ words) (all_seeds perm₂ words) := by
  have hgpc : ∀ w ∈ paddedCalls words,
      List.Perm (generate_padded_combinations perm₁ w 200)
        (generate_padded_combinations perm₂ w 200) :=
    fun w hw => gpc_perm_congr perm₁ perm₂ h₁ h₂ w (hcap w hw)
  rw [all_seeds, all_seeds]
  refine List.Perm.append (List.Perm.append (List.Perm.append ?_
    (List.Perm.refl patternPhase)) ?_) (List.Perm.refl _)
  · refine List.Perm.flatMap_left _ (fun word hword => ?_)
    rw [List.mem_filter] at hword
    have hlen : word.length ≤ 8 := by simpa using hword.2
    refine List.Perm.append
      (hgpc word (word_mem_paddedCalls hword.1 hlen)) ?_
    exact List.Perm.flatMap_left _
      (fun lw hlw => hgpc lw (leet_mem_paddedCalls hword.1 hlen hlw))
  · rw [pairPhase, pairPhase]
    refine List.Perm.flatMap_left _ (fun w1 hw1 => ?_)
    refine List.Perm.flatMap_left _ (fun w2 hw2 => ?_)
    by_cases hfit : w1.length + w2.length ≤ 8
    · rw [if_pos hfit, if_pos hfit]
      by_cases hlt : (w1 ++ w2).length < 8
      · rw [if_pos hlt, if_pos hlt]
        exact hgpc _ (pair_mem_paddedCalls hw1 hw2 hfit hlt)
      · rw [if_neg hlt, if_neg hlt]
    · rw [if_neg hfit, if_neg hfit]

theorem pySet_perm_congr {l₁ l₂ : List (List Char)} (h : List.Perm l₁ l₂) :
    List.Perm (pySet l₁) (pySet l₂) := by
  refine List.perm_of_nodup_nodup_toFinset_eq (nodup_pySet _) (nodup_pySet _) ?_
  refine Finset.ext (fun a => ?_)
  rw [List.mem_toFinset, List.mem_toFinset, mem_pySet, mem_pySet]
  exact h.mem_iff

/-- C3 amended: the output is a deterministic function of the inputs
provided no padding candidate set exceeds the 200-item cap, so the `[:200]`
truncation never discards anything and the iteration order is irrelevant. -/
theorem outLines_deterministic_of_no_truncation
    (perm₁ perm₂ : List (List Char) → List (List Char))
    (h₁ : ∀ l, List.Perm (perm₁ l) l) (h₂ : ∀ l, List.Perm (perm₂ l) l)
    (words : List (List Char))
    (hcap : ∀ w ∈ paddedCalls words,
      (pySet (rawPadResults (normalizeWord w))).length ≤ 200) :
    outLines perm₁ words = outLines perm₂ words := by
  have hvs : List.Perm (valid_seeds perm₁ words) (valid_seeds perm₂ words) :=
    List.Perm.filter _
      (pySet_perm_congr (all_seeds_perm_congr perm₁ perm₂ h₁ h₂ words hcap))
  rw [outLines, outLines, generate_word_combinations, generate_word_combinations]
  refine List.eq_of_perm_of_sorted ?_ (List.sorted_insertionSort _ _)
    (List.sorted_insertionSort _ _)
  exact (List.perm_insertionSort _ _).trans
    (hvs.trans (List.perm_insertionSort _ _).symm)

/-- Witness for the amended C3: for the word list `["GAME"]` no candidate
set reaches the cap, and the two iteration orders agree. -/
theorem outLines_deterministic_of_no_truncation_witness :
    outLines id ["GAME".toList] = outLines List.reverse ["GAME".toList] :=
  outLines_deterministic_of_no_truncation id List.reverse
    (fun l => List.Perm.refl l) (fun l => List.reverse_perm l)
    ["GAME".toList] (by decide)
